import Mathlib

/-!
Shallow embedding of the book-order application (`src/app.py`): the data layer
(`init_db`, `insert_order`, `fetch_orders`, `batch_apply`), the create-order form
submit logic, and the statistics aggregation.  The `orders` table is modelled as a
`List Row`; SQL `NUMERIC` values as `ℚ`; nullable columns as `Option`; a transaction
(`with engine.begin()`) as a function returning an optional state — `none` means the
transaction raised and was rolled back, and the observable state is then the
pre-transaction state.
-/

namespace BookOrder

/-- A stored row of the `orders` table.  The base schema has
`id SERIAL PRIMARY KEY, name TEXT NOT NULL, qty INTEGER NOT NULL CHECK (qty > 0),
created_at TIMESTAMP NOT NULL`; schema evolution adds the nullable columns
`book_category TEXT`, `book_title TEXT`, `price NUMERIC(10,2)`, `note TEXT`.
The `qty` field is kept as `Option Int` so the defensive numeric coercion performed
by `fetch_orders` (`pd.to_numeric(...).fillna(0)`) can be expressed. -/
structure Row where
  id : Nat
  name : String
  qty : Option Int
  book_category : Option String
  book_title : Option String
  price : Option ℚ
  note : Option String
  created_at : Nat
  deriving Repr, DecidableEq

/-- Constant `BOOK_PRICES`: the static catalog of fixed (label, price) entries. -/
def BOOK_PRICES : List (String × ℚ) :=
  [("python人工智慧", 450), ("python基礎學習課程", 300)]

/-- Constant `OTHER_LABEL`: the free-form ("other") sentinel label offered
alongside the catalog entries in the radio choice. -/
def OTHER_LABEL : String := "其他（自填）"

/-- The literal string assigned to `category` in the free-form branch of the
create-order form (`category = "其他選項"`).  Note it is a different string from
`OTHER_LABEL`. -/
def freeform_category : String := "其他選項"

/-- The backfill `init_db` performs on one pre-existing row:
`UPDATE orders SET price = 0 WHERE price IS NULL`, and `book_category` /
`book_title` set to `'(未填)'` where null.  The source issues no such UPDATE for
`note`, so `note` is left as it is. -/
def backfillRow (r : Row) : Row :=
  { r with
    price := some (r.price.getD 0)
    book_category := some (r.book_category.getD "(未填)")
    book_title := some (r.book_title.getD "(未填)") }

/-- Function `init_db`: one transaction that creates the table if absent (no
effect on the rows themselves), adds the evolved columns if absent (already
present in `Row`), and backfills the nullable columns of pre-existing rows. -/
def init_db (db : List Row) : List Row :=
  db.map backfillRow

/-- Function `insert_order(name, qty, book_category, book_title, price, note)`:
appends one row.  `newId` is the server-assigned id, `now` the insertion
timestamp; the bound parameter for `note` is `note or ""`, i.e. the empty string
when `note` is `None`. -/
def insert_order (db : List Row) (newId now : Nat) (name : String) (qty : Int)
    (book_category book_title : String) (price : ℚ) (note : Option String) :
    List Row :=
  db ++ [{ id := newId, name := name, qty := some qty,
           book_category := some book_category, book_title := some book_title,
           price := some price, note := some (note.getD ""), created_at := now }]

/-- A row of the DataFrame returned by `fetch_orders`, after the numeric coercions
and with the derived `amount` column. -/
structure ListedRow where
  id : Nat
  name : String
  qty : Int
  book_category : Option String
  book_title : Option String
  price : ℚ
  note : Option String
  created_at : Nat
  amount : ℚ
  deriving Repr, DecidableEq

/-- The per-row coercion in `fetch_orders`:
`df["price"] = pd.to_numeric(df["price"], errors="coerce").fillna(0)` (a null or
unparsable price becomes 0), `df["qty"] = pd.to_numeric(df["qty"], ...).fillna(0)`
(a null qty becomes 0), and `df["amount"] = df["qty"] * df["price"]`. -/
def coerceRow (r : Row) : ListedRow :=
  { id := r.id, name := r.name, qty := r.qty.getD 0,
    book_category := r.book_category, book_title := r.book_title,
    price := r.price.getD 0, note := r.note, created_at := r.created_at,
    amount := ((r.qty.getD 0 : Int) : ℚ) * r.price.getD 0 }

/-- The `ORDER BY id DESC` comparison: `a` comes no later than `b` when its id is
no smaller. -/
def idGe (a b : Row) : Prop := b.id ≤ a.id

instance : DecidableRel idGe := fun a b => Nat.decLe b.id a.id

/-- Function `fetch_orders(limit)`: `SELECT ... FROM orders ORDER BY id DESC
LIMIT :lim`, then the defensive coercions and the derived `amount` column.  An
empty result is returned as an empty frame, not an error. -/
def fetch_orders (lim : Nat) (db : List Row) : List ListedRow :=
  ((List.insertionSort idGe db).take lim).map coerceRow

/-- One element of the `updates` list passed to `batch_apply`:
`{"id": ..., "q": ...}`. -/
structure UpdateParams where
  id : Nat
  q : Int
  deriving Repr, DecidableEq

/-- One executed `UPDATE orders SET qty = :q WHERE id = :id`. -/
def applyUpdate (u : UpdateParams) (db : List Row) : List Row :=
  db.map (fun r => if r.id = u.id then { r with qty := some u.q } else r)

/-- The `CHECK (qty > 0)` table constraint: an executed UPDATE raises exactly when
it writes a non-positive qty into at least one matched row. -/
def updateViolates (u : UpdateParams) (db : List Row) : Bool :=
  (db.any fun r => r.id == u.id) && decide (u.q ≤ 0)

/-- Sequential `executemany` of the qty updates; the first constraint violation
raises and aborts the statement sequence. -/
def runUpdates (db : List Row) : List UpdateParams → Option (List Row)
  | [] => some db
  | u :: us =>
      if updateViolates u db then none else runUpdates (applyUpdate u db) us

/-- Statement `DELETE FROM orders WHERE id IN :ids`: set-membership match, never
raises. -/
def applyDeletes (delete_ids : List Nat) (db : List Row) : List Row :=
  db.filter fun r => !(delete_ids.contains r.id)

/-- Function `batch_apply(updates, delete_ids)`: one transaction that first
executes all qty updates, then the deletions.  `none` means some statement raised
and `engine.begin()` rolled the transaction back. -/
def batch_apply (updates : List UpdateParams) (delete_ids : List Nat)
    (db : List Row) : Option (List Row) :=
  match runUpdates db updates with
  | none => none
  | some db1 => some (applyDeletes delete_ids db1)

/-- The observable storage state after the `with engine.begin()` block of
`batch_apply`: commit on success, rollback to the pre-transaction state on
exception. -/
def batchState (updates : List UpdateParams) (delete_ids : List Nat)
    (db : List Row) : List Row :=
  (batch_apply updates delete_ids db).getD db

/-- Unconditional application of every update in order, ignoring the check
constraint; used to characterise the committed state of a successful batch. -/
def applyUpdatesAll (updates : List UpdateParams) (db : List Row) : List Row :=
  updates.foldl (fun d u => applyUpdate u d) db

/-- The widget values of one submission of `create_order_form`. -/
structure FormInput where
  name : String
  choice : String
  other_title : String
  other_price : ℚ
  qty : Int
  note : String
  deriving Repr, DecidableEq

/-- The (category, title, price) triple computed in the form body: the free-form
branch takes the user-typed title and price and the literal category `"其他選項"`;
the catalog branch takes the chosen label for both title and category and the
fixed price `BOOK_PRICES[choice]`.  `none` is unreachable through the radio
widget, whose options are exactly the catalog labels plus `OTHER_LABEL`. -/
def formFields (f : FormInput) : Option (String × String × ℚ) :=
  if f.choice = OTHER_LABEL then
    some (freeform_category, f.other_title, f.other_price)
  else
    match BOOK_PRICES.lookup f.choice with
    | some p => some (f.choice, f.choice, p)
    | none => none

/-- The `str.strip()` of Python: remove leading and trailing whitespace. -/
def pyStrip (s : String) : String :=
  ⟨((s.data.dropWhile Char.isWhitespace).reverse.dropWhile Char.isWhitespace).reverse⟩

/-- The submit handler: rejects a blank stripped name, and for the free-form
choice a blank stripped title or a price ≤ 0; otherwise calls
`insert_order(clean_name, qty, category, title.strip(), price, note)`. -/
def submit (f : FormInput) (db : List Row) (newId now : Nat) :
    Option (List Row) :=
  match formFields f with
  | none => none
  | some (category, title, price) =>
      if pyStrip f.name = "" then none
      else if f.choice = OTHER_LABEL ∧ (pyStrip title = "" ∨ price ≤ 0) then none
      else some (insert_order db newId now (pyStrip f.name) f.qty category
        (pyStrip title) price (some f.note))

/-- Lexicographic comparison on code points, the string order `sort_values` uses. -/
def charsLe : List Char → List Char → Bool
  | [], _ => true
  | _ :: _, [] => false
  | a :: as, b :: bs => if a < b then true else if b < a then false else charsLe as bs

/-- The sort order `sort_values("book_title")` induces on group keys: strings
ascending, missing (NaN) keys last. -/
def keyLE : Option String → Option String → Prop
  | some x, some y => charsLe x.data y.data = true
  | some _, none => True
  | none, some _ => False
  | none, none => True

instance : DecidableRel keyLE := fun a b =>
  match a, b with
  | some x, some y => inferInstanceAs (Decidable (charsLe x.data y.data = true))
  | some _, none => inferInstanceAs (Decidable True)
  | none, some _ => inferInstanceAs (Decidable False)
  | none, none => inferInstanceAs (Decidable True)

/-- The statistics block:
`df.groupby("book_title", dropna=False).agg(sum qty, sum amount).reset_index()
.sort_values("book_title")` — one entry per distinct title, carrying the group
sums of `qty` and `amount`, sorted by title ascending. -/
def agg (rows : List ListedRow) : List (Option String × Int × ℚ) :=
  (List.insertionSort keyLE (rows.map ListedRow.book_title).dedup).map fun k =>
    (k, ((rows.filter fun r => r.book_title == k).map ListedRow.qty).sum,
        ((rows.filter fun r => r.book_title == k).map ListedRow.amount).sum)

/-- The grand total `total_amount = float(df["amount"].sum())` over all rows. -/
def total_amount (rows : List ListedRow) : ℚ :=
  (rows.map ListedRow.amount).sum

/-- Concrete store row: id 1, qty 5, title "A", price 10. -/
def r1 : Row :=
  { id := 1, name := "alice", qty := some 5, book_category := some "c",
    book_title := some "A", price := some 10, note := some "", created_at := 0 }

/-- Concrete store row: id 2, qty 1, title "B", price 5. -/
def r2 : Row :=
  { id := 2, name := "bob", qty := some 1, book_category := some "c",
    book_title := some "B", price := some 5, note := some "", created_at := 0 }

/-- Concrete pre-evolution row: all evolved columns null. -/
def rLegacy : Row :=
  { id := 7, name := "old", qty := some 2, book_category := none,
    book_title := none, price := none, note := none, created_at := 0 }

/-- Concrete free-form submission: title "Foo", price 99, qty 2. -/
def fFoo : FormInput :=
  { name := "n", choice := OTHER_LABEL, other_title := "Foo", other_price := 99,
    qty := 2, note := "" }

/-- The row the submission `fFoo` inserts into an empty store. -/
def rowFoo : Row :=
  { id := 1, name := "n", qty := some 2, book_category := some "其他選項",
    book_title := some "Foo", price := some 99, note := some "", created_at := 0 }

/-- Concrete aggregation-example row: title "A", qty 2, price 10. -/
def rA1 : Row :=
  { id := 1, name := "x", qty := some 2, book_category := some "c",
    book_title := some "A", price := some 10, note := some "", created_at := 0 }

/-- Concrete aggregation-example row: title "A", qty 3, price 10. -/
def rA2 : Row :=
  { id := 2, name := "y", qty := some 3, book_category := some "c",
    book_title := some "A", price := some 10, note := some "", created_at := 0 }

/-- Concrete aggregation-example row: title "B", qty 1, price 5. -/
def rB : Row :=
  { id := 3, name := "z", qty := some 1, book_category := some "c",
    book_title := some "B", price := some 5, note := some "", created_at := 0 }

/-! Support lemmas and order-theoretic facts about the embedded operations. -/

theorem charsLe_total : ∀ x y : List Char, charsLe x y = true ∨ charsLe y x = true
  | [], _ => Or.inl rfl
  | _ :: _, [] => Or.inr rfl
  | a :: as, b :: bs => by
      rcases lt_trichotomy a b with h | h | h
      · left; simp [charsLe, h]
      · subst h
        rcases charsLe_total as bs with ih | ih
        · left; simp [charsLe, lt_irrefl, ih]
        · right; simp [charsLe, lt_irrefl, ih]
      · right; simp [charsLe, h]

theorem charsLe_trans : ∀ x y z : List Char,
    charsLe x y = true → charsLe y z = true → charsLe x z = true
  | [], _, _, _, _ => rfl
  | _ :: _, [], _, hxy, _ => by simp [charsLe] at hxy
  | _ :: _, _ :: _, [], _, hyz => by simp [charsLe] at hyz
  | a :: as, b :: bs, c :: cs, hxy, hyz => by
      simp only [charsLe] at hxy hyz ⊢
      rcases lt_trichotomy a b with hab | hab | hab
      · rcases lt_trichotomy b c with hbc | hbc | hbc
        · simp [lt_trans hab hbc]
        · subst hbc; simp [hab]
        · simp [hab, lt_asymm hab, hbc, lt_asymm hbc] at hxy hyz
      · subst hab
        rcases lt_trichotomy a c with hac | hac | hac
        · simp [hac]
        · subst hac
          simp [lt_irrefl] at hxy hyz ⊢
          exact charsLe_trans as bs cs hxy hyz
        · simp [lt_irrefl] at hxy
          simp [hac, lt_asymm hac] at hyz
      · simp [hab, lt_asymm hab] at hxy

instance : IsTotal Row idGe := ⟨fun a b => Nat.le_total b.id a.id⟩

instance : IsTrans Row idGe := ⟨fun _ _ _ hab hbc => Nat.le_trans hbc hab⟩

instance : IsTotal (Option String) keyLE :=
  ⟨fun a b =>
    match a, b with
    | some x, some y => charsLe_total x.data y.data
    | some _, none => Or.inl trivial
    | none, some _ => Or.inr trivial
    | none, none => Or.inl trivial⟩

instance : IsTrans (Option String) keyLE :=
  ⟨fun a b c hab hbc =>
    match a, b, c, hab, hbc with
    | some x, some y, some z, hab, hbc => charsLe_trans x.data y.data z.data hab hbc
    | some _, some _, none, _, _ => trivial
    | some _, none, none, _, _ => trivial
    | none, none, none, _, _ => trivial⟩

theorem runUpdates_eq_applyAll : ∀ (us : List UpdateParams) (db db1 : List Row),
    runUpdates db us = some db1 → db1 = applyUpdatesAll us db
  | [], db, db1, h => by
      simp only [runUpdates, Option.some.injEq] at h
      simp [applyUpdatesAll, ← h]
  | u :: us, db, db1, h => by
      by_cases hv : updateViolates u db = true
      · simp [runUpdates, hv] at h
      · simp only [runUpdates, hv, Bool.false_eq_true, if_false] at h
        simpa [applyUpdatesAll] using runUpdates_eq_applyAll us (applyUpdate u db) db1 h

theorem backfillRow_idem (r : Row) : backfillRow (backfillRow r) = backfillRow r := by
  simp [backfillRow]

theorem insertionSort_cons_of_max (db : List Row) (x : Row)
    (hx : ∀ r ∈ db, r.id < x.id) :
    ∃ t, List.insertionSort idGe (db ++ [x]) = x :: t := by
  have hperm := List.perm_insertionSort idGe (db ++ [x])
  have hsorted := List.sorted_insertionSort idGe (db ++ [x])
  cases hs : List.insertionSort idGe (db ++ [x]) with
  | nil =>
      exfalso
      have hx2 : x ∈ List.insertionSort idGe (db ++ [x]) :=
        (List.mem_insertionSort idGe).mpr (by simp)
      rw [hs] at hx2
      simp at hx2
  | cons hhd t =>
      refine ⟨t, ?_⟩
      have hmem : hhd ∈ db ++ [x] := hperm.subset (hs ▸ List.mem_cons_self hhd t)
      rcases List.mem_append.mp hmem with hdb | hsing
      · exfalso
        have hlt : hhd.id < x.id := hx hhd hdb
        have hxmem : x ∈ hhd :: t := by
          rw [← hs]
          exact (List.mem_insertionSort idGe).mpr (by simp)
        rcases List.mem_cons.mp hxmem with hxh | hxt
        · exact absurd (hxh ▸ hlt) (lt_irrefl _)
        · rw [hs] at hsorted
          have hge : idGe hhd x := (List.pairwise_cons.mp hsorted).1 x hxt
          exact absurd hlt (Nat.not_lt.mpr hge)
      · simp only [List.mem_singleton] at hsing
        rw [hsing]

theorem lookup_BOOK_PRICES (s : String) (p : ℚ)
    (h : BOOK_PRICES.lookup s = some p) : p = 450 ∨ p = 300 := by
  simp only [BOOK_PRICES, List.lookup] at h
  split at h
  · injection h with h; exact Or.inl h.symm
  · split at h
    · injection h with h; exact Or.inr h.symm
    · simp at h

/-! Claim theorems. -/

/-- Claim C1: `batch_apply` is atomic.  If any individual update or delete in the
batch fails, the whole transaction rolls back and the observable storage state
equals the pre-batch state exactly; moreover the observable state is always
either the pre-batch state or the full application of all updates followed by
all deletes — never a partial state. -/
theorem batch_apply_atomic (updates : List UpdateParams) (delete_ids : List Nat)
    (db : List Row) :
    (batch_apply updates delete_ids db = none →
      batchState updates delete_ids db = db) ∧
    (batchState updates delete_ids db = db ∨
      batchState updates delete_ids db =
        applyDeletes delete_ids (applyUpdatesAll updates db)) := by
  refine ⟨fun h => by simp [batchState, h], ?_⟩
  cases hr : runUpdates db updates with
  | none => exact Or.inl (by simp [batchState, batch_apply, hr])
  | some db1 =>
      exact Or.inr (by
        simp [batchState, batch_apply, hr, runUpdates_eq_applyAll updates db db1 hr])

/-- Witness for C1: a batch whose first update writes qty 0 into row 1 fails, and
the observable state is exactly the pre-batch store. -/
theorem batch_apply_atomic_witness :
    batchState [⟨1, 0⟩] [2] [r1, r2] = [r1, r2] :=
  (batch_apply_atomic [⟨1, 0⟩] [2] [r1, r2]).1 (by decide)

/-- Counterexample for C2: updating row 1 (stored qty 5) to quantity 0 does not
produce a stored quantity of 1.  The UPDATE violates the `qty > 0` check, the
batch fails, and the stored qty stays 5. -/
theorem update_zero_not_clamped_cex :
    (batchState [⟨1, 0⟩] [] [r1]).map Row.qty ≠ [some 1] ∧
    (batchState [⟨1, 0⟩] [] [r1]).map Row.qty = [some 5] ∧
    batch_apply [⟨1, 0⟩] [] [r1] = none :=
  ⟨by decide, by decide, by decide⟩

/-- Claim C2 (amended): the repository layer does not clamp quantities.  A
quantity update below 1 that matches an existing row violates the `qty > 0`
check constraint; the whole batch fails and storage is left unchanged, so the
old quantity survives and no value below 1 is ever written. -/
theorem update_below_one_rejected (u : UpdateParams) (us : List UpdateParams)
    (delete_ids : List Nat) (db : List Row) (hq : u.q < 1)
    (hm : ∃ r ∈ db, r.id = u.id) :
    batch_apply (u :: us) delete_ids db = none ∧
    batchState (u :: us) delete_ids db = db := by
  have hviol : updateViolates u db = true := by
    obtain ⟨r, hr, hid⟩ := hm
    simp only [updateViolates, Bool.and_eq_true, List.any_eq_true, beq_iff_eq,
      decide_eq_true_eq]
    exact ⟨⟨r, hr, hid⟩, by omega⟩
  have hnone : batch_apply (u :: us) delete_ids db = none := by
    simp [batch_apply, runUpdates, hviol]
  exact ⟨hnone, by simp [batchState, hnone]⟩

/-- Witness for the amended C2: the concrete qty-0 update on row 1 fails and
leaves the store unchanged. -/
theorem update_below_one_rejected_witness :
    batch_apply [⟨1, 0⟩] [] [r1] = none ∧ batchState [⟨1, 0⟩] [] [r1] = [r1] :=
  update_below_one_rejected ⟨1, 0⟩ [] [] [r1] (by decide) ⟨r1, by decide, rfl⟩

/-- Claim C3: within one committed `batch_apply` transaction all quantity updates
are applied before any deletions — the committed state is exactly the deletions
applied to the fully updated store — and consequently an id contained in
`delete_ids` (in particular one also appearing in `updates`) is absent from the
committed state: the row is deleted. -/
theorem updates_before_deletes (updates : List UpdateParams) (delete_ids : List Nat)
    (db db1 : List Row) (h : batch_apply updates delete_ids db = some db1) :
    db1 = applyDeletes delete_ids (applyUpdatesAll updates db) ∧
    ∀ i ∈ delete_ids, ∀ r ∈ db1, r.id ≠ i := by
  cases hr : runUpdates db updates with
  | none => simp [batch_apply, hr] at h
  | some db2 =>
      simp only [batch_apply, hr, Option.some.injEq] at h
      subst h
      refine ⟨by rw [runUpdates_eq_applyAll updates db db2 hr], ?_⟩
      intro i hi r hrm hid
      simp only [applyDeletes, List.mem_filter, Bool.not_eq_true'] at hrm
      have hnm : r.id ∉ delete_ids := by simpa using hrm.2
      exact hnm (hid ▸ hi)

/-- Witness for C3: a batch that updates row 1 and also deletes row 1 commits to
a store without row 1. -/
theorem updates_before_deletes_witness :
    [r2] = applyDeletes [1] (applyUpdatesAll [⟨1, 3⟩] [r1, r2]) ∧
    ∀ i ∈ [1], ∀ r ∈ [r2], r.id ≠ i :=
  updates_before_deletes [⟨1, 3⟩] [1] [r1, r2] [r2] (by decide)

/-- Claim C4: every row returned by `fetch_orders` satisfies
`amount = qty * price`, where a null (or unparsable) stored price is coerced to 0
and a null stored quantity is coerced to 0 before the multiplication; in
particular a row with a null price has listed price 0 and amount 0. -/
theorem amount_eq_qty_mul_price (lim : Nat) (db : List Row) :
    (∀ lr ∈ fetch_orders lim db, lr.amount = (lr.qty : ℚ) * lr.price) ∧
    (∀ r : Row, r.price = none →
      (coerceRow r).price = 0 ∧ (coerceRow r).amount = 0) ∧
    (∀ r : Row, r.qty = none → (coerceRow r).qty = 0) := by
  refine ⟨?_, ?_, ?_⟩
  · intro lr hlr
    simp only [fetch_orders, List.mem_map] at hlr
    obtain ⟨r, _, rfl⟩ := hlr
    simp [coerceRow]
  · intro r hp
    constructor <;> simp [coerceRow, hp]
  · intro r hq
    simp [coerceRow, hq]

/-- Witness for C4: the listed form of the concrete row `r1` satisfies the
amount identity. -/
theorem amount_eq_qty_mul_price_witness :
    (coerceRow r1).amount = ((coerceRow r1).qty : ℚ) * (coerceRow r1).price :=
  (amount_eq_qty_mul_price 500 [r1]).1 (coerceRow r1)
    (List.mem_singleton_self (coerceRow r1))

/-- Counterexample for C5: `init_db` does not backfill `note`.  A pre-existing
row with a null note keeps a null note after schema initialization, while price
and title are backfilled; null is not the empty string the claim promises. -/
theorem init_db_note_not_backfilled_cex :
    (init_db [rLegacy]).map Row.note = [none] ∧
    (init_db [rLegacy]).map Row.price = [some 0] ∧
    (init_db [rLegacy]).map Row.book_title = [some "(未填)"] ∧
    ((none : Option String) ≠ some "") :=
  ⟨by decide, by decide, by decide, by decide⟩

/-- Claim C5 (amended): `init_db` is idempotent, and after it runs every row has
a non-null price, category and title; a null price is backfilled to 0 and a null
category or title to the placeholder "(未填)".  The `note` column, however, is
left untouched — a pre-existing null note is not backfilled to the empty
string. -/
theorem init_db_idempotent_backfill (db : List Row) :
    init_db (init_db db) = init_db db ∧
    (∀ r ∈ init_db db,
      (r.price).isSome = true ∧ (r.book_category).isSome = true ∧
      (r.book_title).isSome = true) ∧
    (∀ r : Row, r.price = none → (backfillRow r).price = some 0) ∧
    (∀ r : Row, r.book_category = none →
      (backfillRow r).book_category = some "(未填)") ∧
    (∀ r : Row, r.book_title = none →
      (backfillRow r).book_title = some "(未填)") ∧
    (∀ r : Row, (backfillRow r).note = r.note) := by
  refine ⟨?_, ?_, ?_, ?_, ?_, ?_⟩
  · simp [init_db, List.map_map, Function.comp_def, backfillRow_idem]
  · intro r hr
    simp only [init_db, List.mem_map] at hr
    obtain ⟨r0, _, rfl⟩ := hr
    simp [backfillRow]
  · intro r hp; simp [backfillRow, hp]
  · intro r hc; simp [backfillRow, hc]
  · intro r ht; simp [backfillRow, ht]
  · intro r; simp [backfillRow]

/-- Witness for the amended C5: the backfilled legacy row has non-null price,
category and title. -/
theorem init_db_idempotent_backfill_witness :
    ((backfillRow rLegacy).price).isSome = true ∧
    ((backfillRow rLegacy).book_category).isSome = true ∧
    ((backfillRow rLegacy).book_title).isSome = true :=
  (init_db_idempotent_backfill [rLegacy]).2.1 (backfillRow rLegacy) (by decide)

/-- Counterexample for C6: after a valid free-form insert of "Foo" at price 99,
the listed row carries title "Foo" and price 99, but its category is the literal
"其他選項" (`freeform_category`), which is not the sentinel label `OTHER_LABEL`
("其他（自填）") offered by the radio widget. -/
theorem freeform_category_not_sentinel_cex :
    submit fFoo [] 1 0 = some [rowFoo] ∧
    (fetch_orders 500 [rowFoo]).map ListedRow.book_category =
      [some freeform_category] ∧
    freeform_category ≠ OTHER_LABEL ∧
    (fetch_orders 500 [rowFoo]).map ListedRow.book_category ≠ [some OTHER_LABEL] ∧
    (fetch_orders 500 [rowFoo]).map ListedRow.book_title = [some "Foo"] ∧
    (fetch_orders 500 [rowFoo]).map ListedRow.price = [(99 : ℚ)] :=
  ⟨by decide, by decide, by decide, by decide, by decide, by decide⟩

/-- Claim C6 (amended): round-trip for free-form orders.  A valid free-form
submission (stripped title non-empty, price > 0, name non-empty) inserts a row
that a subsequent `fetch_orders` lists first, carrying the stripped title, the
submitted price, amount = qty × price, and the fixed free-form category literal
"其他選項" — which differs from the radio sentinel `OTHER_LABEL`. -/
theorem freeform_roundtrip (f : FormInput) (db : List Row) (newId now lim : Nat)
    (hc : f.choice = OTHER_LABEL) (ht : pyStrip f.other_title ≠ "")
    (hp : 0 < f.other_price) (hn : pyStrip f.name ≠ "")
    (hfresh : ∀ r ∈ db, r.id < newId) (hlim : 0 < lim) :
    ∃ db1 lr t, submit f db newId now = some db1 ∧
      fetch_orders lim db1 = lr :: t ∧
      lr.book_title = some (pyStrip f.other_title) ∧
      lr.book_category = some freeform_category ∧
      lr.price = f.other_price ∧
      lr.amount = (f.qty : ℚ) * f.other_price := by
  have hff : formFields f = some (freeform_category, f.other_title, f.other_price) := by
    simp [formFields, hc]
  have hguard : ¬ (f.choice = OTHER_LABEL ∧
      (pyStrip f.other_title = "" ∨ f.other_price ≤ 0)) := by
    rintro ⟨-, h2 | h2⟩
    · exact ht h2
    · exact absurd hp (not_lt.mpr h2)
  have hsub : submit f db newId now =
      some (insert_order db newId now (pyStrip f.name) f.qty freeform_category
        (pyStrip f.other_title) f.other_price (some f.note)) := by
    rw [submit, hff]
    simp only [hn, if_neg, hguard, if_false]
  set newRow : Row :=
    { id := newId, name := pyStrip f.name, qty := some f.qty,
      book_category := some freeform_category,
      book_title := some (pyStrip f.other_title), price := some f.other_price,
      note := some ((some f.note).getD ""), created_at := now } with hnewRow
  obtain ⟨t, hsort⟩ := insertionSort_cons_of_max db newRow hfresh
  obtain ⟨m, rfl⟩ := Nat.exists_eq_add_of_lt hlim
  refine ⟨_, coerceRow newRow, (t.take (0 + m)).map coerceRow, hsub, ?_, ?_, ?_, ?_, ?_⟩
  · rw [fetch_orders]
    have hins : insert_order db newId now (pyStrip f.name) f.qty freeform_category
        (pyStrip f.other_title) f.other_price (some f.note) = db ++ [newRow] := rfl
    rw [hins, hsort]
    simp [List.take_cons]
  · simp [coerceRow]
  · simp [coerceRow]
  · simp [coerceRow]
  · simp [coerceRow]

/-- Witness for the amended C6: the concrete free-form submission `fFoo` on an
empty store round-trips with title "Foo", category "其他選項", price 99 and
amount 2 × 99. -/
theorem freeform_roundtrip_witness :
    ∃ db1 lr t, submit fFoo [] 1 0 = some db1 ∧
      fetch_orders 500 db1 = lr :: t ∧
      lr.book_title = some (pyStrip fFoo.other_title) ∧
      lr.book_category = some freeform_category ∧
      lr.price = fFoo.other_price ∧
      lr.amount = (fFoo.qty : ℚ) * fFoo.other_price :=
  freeform_roundtrip fFoo [] 1 0 500 rfl (by decide) (by decide) (by decide)
    (by decide) (by decide)

/-- Claim C7: the aggregation groups rows by `book_title`, sums `qty` and
`amount` per group, orders groups by title ascending, and computes the grand
total amount over all rows.  On the concrete input with rows ("A", qty 2,
price 10), ("A", qty 3, price 10), ("B", qty 1, price 5) it yields A: quantity 5
amount 50, B: quantity 1 amount 5, grand total 55; on the empty order set it
yields an empty grouping and total 0, not an error. -/
theorem agg_spec :
    (∀ rows : List ListedRow, List.Sorted keyLE ((agg rows).map Prod.fst)) ∧
    (∀ rows : List ListedRow, ∀ e ∈ agg rows,
      e.2.1 = ((rows.filter fun r => r.book_title == e.1).map ListedRow.qty).sum ∧
      e.2.2 = ((rows.filter fun r => r.book_title == e.1).map
        ListedRow.amount).sum) ∧
    (∀ (rows : List ListedRow) (k : Option String),
      k ∈ (agg rows).map Prod.fst ↔ ∃ r ∈ rows, r.book_title = k) ∧
    (∀ rows : List ListedRow, total_amount rows = (rows.map ListedRow.amount).sum) ∧
    agg (fetch_orders 500 [rA1, rA2, rB]) =
      [(some "A", 5, 50), (some "B", 1, 5)] ∧
    total_amount (fetch_orders 500 [rA1, rA2, rB]) = 55 ∧
    agg ([] : List ListedRow) = [] ∧
    total_amount ([] : List ListedRow) = 0 := by
  refine ⟨?_, ?_, ?_, fun rows => rfl, ?_, ?_, rfl, rfl⟩
  · intro rows
    have h : (agg rows).map Prod.fst =
        List.insertionSort keyLE (rows.map ListedRow.book_title).dedup := by
      simp [agg, List.map_map, Function.comp_def]
    rw [h]
    exact List.sorted_insertionSort keyLE _
  · intro rows e he
    simp only [agg, List.mem_map] at he
    obtain ⟨k, _, rfl⟩ := he
    exact ⟨rfl, rfl⟩
  · intro rows k
    have h : (agg rows).map Prod.fst =
        List.insertionSort keyLE (rows.map ListedRow.book_title).dedup := by
      simp [agg, List.map_map, Function.comp_def]
    rw [h]
    simp [List.mem_insertionSort, List.mem_dedup, eq_comm]
  · have h : agg (fetch_orders 500 [rA1, rA2, rB]) =
        [(some "A", 5, ((3 : Int) : ℚ) * 10 + (((2 : Int) : ℚ) * 10 + 0)),
         (some "B", 1, ((1 : Int) : ℚ) * 5 + 0)] := rfl
    rw [h]
    norm_num
  · have h : total_amount (fetch_orders 500 [rA1, rA2, rB]) =
        ((1 : Int) : ℚ) * 5 + (((3 : Int) : ℚ) * 10 + (((2 : Int) : ℚ) * 10 + 0)) :=
      rfl
    rw [h]
    norm_num

/-- Witness for C7: the group entry for title "A" in the concrete example indeed
carries the sums of the matching rows. -/
theorem agg_spec_witness :
    (5 : Int) = (((fetch_orders 500 [rA1, rA2, rB]).filter
      fun r => r.book_title == some "A").map ListedRow.qty).sum ∧
    (50 : ℚ) = (((fetch_orders 500 [rA1, rA2, rB]).filter
      fun r => r.book_title == some "A").map ListedRow.amount).sum := by
  have hmem : ((some "A", (5 : Int), (50 : ℚ)) :
      Option String × Int × ℚ) ∈ agg (fetch_orders 500 [rA1, rA2, rB]) := by
    rw [agg_spec.2.2.2.2.1]
    simp
  exact agg_spec.2.1 (fetch_orders 500 [rA1, rA2, rB]) (some "A", 5, 50) hmem

/-- Claim C8: `fetch_orders(limit)` returns the orders sorted newest-first by id,
contains at most `limit` rows, and returns an empty sequence (not an error) when
no rows exist in storage. -/
theorem fetch_orders_spec (lim : Nat) (db : List Row) :
    List.Sorted (fun a b : ListedRow => b.id ≤ a.id) (fetch_orders lim db) ∧
    (fetch_orders lim db).length ≤ lim ∧
    fetch_orders lim [] = [] := by
  refine ⟨?_, ?_, by simp [fetch_orders]⟩
  · have hs : List.Sorted idGe (List.insertionSort idGe db) :=
      List.sorted_insertionSort idGe db
    have ht : List.Sorted idGe ((List.insertionSort idGe db).take lim) :=
      List.Pairwise.sublist (List.take_sublist lim _) hs
    exact List.pairwise_map.mpr ht
  · simp only [fetch_orders, List.length_map, List.length_take]
    omega

/-- Claim C9: a quantity update or a delete targeting an id not present in
storage is a silent no-op: the transaction succeeds (no error), no row is
created, and the store is returned exactly unchanged. -/
theorem stale_id_noop (i : Nat) (q : Int) (db : List Row)
    (h : ∀ r ∈ db, r.id ≠ i) :
    batch_apply [⟨i, q⟩] [] db = some db ∧ batch_apply [] [i] db = some db := by
  have hup : applyUpdate ⟨i, q⟩ db = db := by
    have h1 : db.map (fun r => if r.id = i then { r with qty := some q } else r) =
        db.map id :=
      List.map_congr_left (fun r hr => by simp [h r hr])
    simpa [applyUpdate] using h1
  have hviol : updateViolates ⟨i, q⟩ db = false := by
    simp only [updateViolates, Bool.and_eq_false_iff]
    left
    simp only [List.any_eq_false, beq_iff_eq]
    exact fun r hr => h r hr
  have hdel : applyDeletes [i] db = db := by
    apply List.filter_eq_self.mpr
    intro r hr
    simp [h r hr]
  have hdel0 : applyDeletes [] db = db := by
    apply List.filter_eq_self.mpr
    intro r hr
    simp
  constructor
  · simp [batch_apply, runUpdates, hviol, hup, hdel0]
  · simp [batch_apply, runUpdates, hdel]

/-- Witness for C9: updating or deleting the absent id 99 leaves the concrete
two-row store unchanged and succeeds. -/
theorem stale_id_noop_witness :
    batch_apply [⟨99, 4⟩] [] [r1, r2] = some [r1, r2] ∧
    batch_apply [] [99] [r1, r2] = some [r1, r2] :=
  stale_id_noop 99 4 [r1, r2] (by decide)

/-- Claim C10: every row created through the insert path has a strictly positive
price.  Any row of a successfully submitted store is either pre-existing or has
price > 0; both catalog prices (450 and 300) are positive; and a free-form
submission with price ≤ 0 is rejected before any storage call. -/
theorem insert_price_positive (f : FormInput) (db db1 : List Row) (newId now : Nat)
    (h : submit f db newId now = some db1) :
    (∀ r ∈ db1, r ∈ db ∨ ∃ p, r.price = some p ∧ 0 < p) ∧
    (∀ pr ∈ BOOK_PRICES, 0 < pr.2) ∧
    (∀ (g : FormInput) (d : List Row) (i t : Nat),
      g.choice = OTHER_LABEL → g.other_price ≤ 0 → submit g d i t = none) := by
  refine ⟨?_, by decide, ?_⟩
  · intro r hr
    cases hf : formFields f with
    | none => simp [submit, hf] at h
    | some ctp =>
        obtain ⟨cat, title, price⟩ := ctp
        simp only [submit, hf] at h
        by_cases h1 : pyStrip f.name = ""
        · rw [if_pos h1] at h; simp at h
        · rw [if_neg h1] at h
          by_cases h2 : f.choice = OTHER_LABEL ∧ (pyStrip title = "" ∨ price ≤ 0)
          · rw [if_pos h2] at h; simp at h
          · rw [if_neg h2] at h
            injection h with h
            subst h
            rcases List.mem_append.mp hr with hin | hnew
            · exact Or.inl hin
            · right
              simp only [List.mem_singleton] at hnew
              subst hnew
              refine ⟨price, rfl, ?_⟩
              by_cases hc : f.choice = OTHER_LABEL
              · rw [formFields, if_pos hc] at hf
                injection hf with hf
                have hprice : price = f.other_price :=
                  (congrArg (fun x => x.2.2) hf).symm
                push_neg at h2
                exact hprice ▸ (h2 hc).2
              · rw [formFields, if_neg hc] at hf
                cases hl : BOOK_PRICES.lookup f.choice with
                | none => rw [hl] at hf; simp at hf
                | some p0 =>
                    rw [hl] at hf
                    injection hf with hf
                    have hprice : price = p0 :=
                      (congrArg (fun x => x.2.2) hf).symm
                    rcases lookup_BOOK_PRICES f.choice p0 hl with h450 | h300
                    · rw [hprice, h450]; norm_num
                    · rw [hprice, h300]; norm_num
  · intro g d i t hc hp
    have hff : formFields g =
        some (freeform_category, g.other_title, g.other_price) := by
      simp [formFields, hc]
    simp only [submit, hff]
    by_cases h1 : pyStrip g.name = ""
    · rw [if_pos h1]
    · rw [if_neg h1, if_pos ⟨hc, Or.inr hp⟩]

/-- Witness for C10: the successful concrete submission `fFoo` creates only rows
with positive price. -/
theorem insert_price_positive_witness :
    (∀ r ∈ [rowFoo], r ∈ ([] : List Row) ∨ ∃ p, r.price = some p ∧ 0 < p) ∧
    (∀ pr ∈ BOOK_PRICES, 0 < pr.2) ∧
    (∀ (g : FormInput) (d : List Row) (i t : Nat),
      g.choice = OTHER_LABEL → g.other_price ≤ 0 → submit g d i t = none) :=
  insert_price_positive fFoo [] [rowFoo] 1 0 (by decide)

end BookOrder
